import Mathlib

/-!
Verification of the Plivo stream demo server's orchestration core
(`examples/demo/server.py`): conversation-history management
(`add_message_and_get_response`), the egress streamer
(`stream_elevenlabs_audio`), the end-of-turn handler
(`on_deepgram_message`), and the session-store event handlers
(`on_start`, `on_disconnected`).

Modelling conventions:
* the OpenAI generation collaborator is an oracle `gen : History → Option String`
  (`none` = the awaited call raises);
* the ElevenLabs synthesis collaborator is a `TTSStream`: the finite list of
  chunks it yields before either completing cleanly (`fails = false`) or
  raising mid-iteration (`fails = true`);
* outbound effects (`send_media`, `send_checkpoint`, `send_clear_audio`) and
  writes to the `playing` flag are recorded in an event trace `List Ev`;
* the Python dict `conversation_history_by_stream_id` is an association list
  with dict-faithful `lookup` / `insert` / `erase` / `setdefault` operations.
-/

namespace PlivoDemo

/-- One entry of a conversation history: `{"role": ..., "content": ...}`. -/
structure Msg where
  role : String
  content : String
deriving DecidableEq, Repr

abbrev History := List Msg

/-- The `conversation_history_by_stream_id` dict, as an association list. -/
abbrev HistMap := List (String × History)

/-- Dict lookup: first binding of the key, if any. -/
def lookupH : HistMap → String → Option History
  | [], _ => none
  | (k, v) :: rest, key => if k = key then some v else lookupH rest key

/-- Dict assignment: replace the binding in place, else append. -/
def insertH : HistMap → String → History → HistMap
  | [], key, v => [(key, v)]
  | (k, w) :: rest, key, v =>
      if k = key then (key, v) :: rest else (k, w) :: insertH rest key v

/-- Dict `del` (tolerant of a missing key, as the code's try/except is). -/
def eraseH : HistMap → String → HistMap
  | [], _ => []
  | (k, w) :: rest, key =>
      if k = key then eraseH rest key else (k, w) :: eraseH rest key

/-- Dict `setdefault`: return the existing value, else bind the default and
return it. -/
def setdefaultH (m : HistMap) (key : String) (v : History) : History × HistMap :=
  match lookupH m key with
  | some w => (w, m)
  | none => (v, m ++ [(key, v)])

/-- `add_message_and_get_response(user_message, history)`: append the user
turn, call the generation collaborator, on success append the assistant turn
and trim to the last 20 entries (`history[-20:]`); on failure the user turn
stays appended and the exception propagates (result `none`). -/
def add_message_and_get_response (gen : History → Option String)
    (user_message : String) (history : History) : Option String × History :=
  let h1 := history ++ [{ role := "user", content := user_message }]
  match gen h1 with
  | none => (none, h1)
  | some assistant_response =>
      let h2 := h1 ++ [{ role := "assistant", content := assistant_response }]
      let h3 := if 20 < h2.length then h2.drop (h2.length - 20) else h2
      (some assistant_response, h3)

/-- Outbound operations on the Plivo handler. -/
inductive Action where
  | sendMedia (chunk : Nat)
  | sendCheckpoint (name : String)
  | sendClearAudio
deriving DecidableEq, Repr

/-- Trace events: an outbound action, or a write to the `playing` flag. -/
inductive Ev where
  | setPlaying (b : Bool)
  | act (a : Action)
deriving DecidableEq, Repr

/-- The synthesis collaborator: the chunks it yields, and whether the
iteration then raises (`fails = true`) or completes cleanly. -/
structure TTSStream where
  chunks : List Nat
  fails : Bool
deriving DecidableEq, Repr

/-- `stream_elevenlabs_audio(text)`: set `playing = True`, send each yielded
chunk via `send_media` (pacing sleep elided), then send the
`"all_audio_played"` checkpoint — unless the chunk iterator raises, in which
case the exception propagates before the checkpoint (`false` result). -/
def stream_elevenlabs_audio (tts : TTSStream) : List Ev × Bool :=
  let sends := tts.chunks.map (fun c => Ev.act (Action.sendMedia c))
  if tts.fails then
    (Ev.setPlaying true :: sends, false)
  else
    (Ev.setPlaying true :: (sends ++ [Ev.act (Action.sendCheckpoint "all_audio_played")]), true)

/-- Replay the `playing`-flag writes of a trace over an initial value. -/
def runFlag (b : Bool) (tr : List Ev) : Bool :=
  tr.foldl (fun b e => match e with | Ev.setPlaying v => v | Ev.act _ => b) b

/-- The per-connection closure state of `stream_websocket_handler`. -/
structure ConnState where
  playing : Bool
  current_stream_id : Option String
  histories : HistMap
deriving DecidableEq, Repr

/-- Python `current_stream_id or "unknown"`: the fallback is taken for every
falsy value, i.e. both `None` and the empty string. -/
def resolveStreamId (cur : Option String) : String :=
  match cur with
  | none => "unknown"
  | some s => if s = "" then "unknown" else s

/-- The `EndOfTurn` branch of `on_deepgram_message`: resolve the stream id
(`current_stream_id or "unknown"`, Python truthiness), `setdefault` its
history, run `add_message_and_get_response` (a failure propagates with the
user turn kept, nothing sent), then clear audio if `playing`, and stream the
reply. Returns (new state, event trace, completed-without-exception). -/
def handleEndOfTurn (gen : History → Option String) (tts : TTSStream)
    (transcript : String) (st : ConnState) : ConnState × List Ev × Bool :=
  let stream_id := resolveStreamId st.current_stream_id
  let hm := setdefaultH st.histories stream_id []
  match add_message_and_get_response gen transcript hm.1 with
  | (none, h1) =>
      ({ st with histories := insertH hm.2 stream_id h1 }, [], false)
  | (some _, h1) =>
      let st1 : ConnState := { st with histories := insertH hm.2 stream_id h1 }
      let cleared : List Ev × ConnState :=
        if st1.playing then
          ([Ev.act Action.sendClearAudio, Ev.setPlaying false],
           { st1 with playing := false })
        else ([], st1)
      let s := stream_elevenlabs_audio tts
      ({ cleared.2 with playing := runFlag cleared.2.playing s.1 },
       cleared.1 ++ s.1, s.2)

/-- `on_start`: record the stream id and `setdefault` an empty history. -/
def on_start (stream_id : String) (st : ConnState) : ConnState :=
  { st with current_stream_id := some stream_id,
            histories := (setdefaultH st.histories stream_id []).2 }

/-- `on_disconnected`: `if current_stream_id and current_stream_id in dict:
del dict[current_stream_id]` — note Python truthiness: an empty-string id
skips the deletion, as does a missing key. -/
def on_disconnected (st : ConnState) : ConnState :=
  match st.current_stream_id with
  | none => st
  | some sid =>
      if sid ≠ "" ∧ (lookupH st.histories sid).isSome then
        { st with histories := eraseH st.histories sid }
      else st

/-- The media chunks sent by a trace, in order. -/
def mediaOf (tr : List Ev) : List Nat :=
  tr.filterMap (fun e =>
    match e with
    | Ev.act (Action.sendMedia c) => some c
    | _ => none)

/-- Whether an event is a checkpoint send. -/
def isCheckpoint : Ev → Bool
  | Ev.act (Action.sendCheckpoint _) => true
  | _ => false

/-- Scans a trace: `true` iff a clear-audio occurs before any media send
(vacuously `true` when no media is sent). -/
def clearBeforeAllMedia : List Ev → Bool
  | [] => true
  | Ev.act Action.sendClearAudio :: _ => true
  | Ev.act (Action.sendMedia _) :: _ => false
  | _ :: tr => clearBeforeAllMedia tr

/-- One user/assistant exchange with deterministic text for exchange `i`
(the generation collaborator succeeds). -/
def exchangeStep (h : History) (i : Nat) : History :=
  (add_message_and_get_response (fun _ => some ("reply" ++ toString i))
    ("user" ++ toString i) h).2

/-- Eleven sequential successful exchanges, numbered 1..11, from an empty
history. -/
def elevenExchanges : History :=
  (List.range 11).foldl (fun h i => exchangeStep h (i + 1)) []

/-- The last ten pairs of the eleven exchanges: exchanges 2..11 in order. -/
def expectedAfterEleven : History :=
  (List.range 10).foldr (fun j acc =>
    Msg.mk "user" ("user" ++ toString (j + 2)) ::
    Msg.mk "assistant" ("reply" ++ toString (j + 2)) :: acc) []

theorem lookupH_insertH_self (m : HistMap) (k : String) (v : History) :
    lookupH (insertH m k v) k = some v := by
  induction m with
  | nil => simp [insertH, lookupH]
  | cons p rest ih =>
      by_cases h : p.1 = k
      · simp [insertH, h, lookupH]
      · simp [insertH, h, lookupH, ih]

theorem lookupH_insertH_ne (m : HistMap) (k k' : String) (v : History)
    (h : k' ≠ k) : lookupH (insertH m k v) k' = lookupH m k' := by
  induction m with
  | nil => simp [insertH, lookupH, Ne.symm h]
  | cons p rest ih =>
      obtain ⟨a, w⟩ := p
      by_cases hp : a = k
      · subst hp
        simp [insertH, lookupH, Ne.symm h]
      · simp only [insertH, hp, if_false, lookupH, ih]

theorem lookupH_eraseH_self (m : HistMap) (k : String) :
    lookupH (eraseH m k) k = none := by
  induction m with
  | nil => simp [eraseH, lookupH]
  | cons p rest ih =>
      by_cases h : p.1 = k
      · simp [eraseH, h, ih]
      · simp [eraseH, h, lookupH, ih]

theorem lookupH_eraseH_ne (m : HistMap) (k k' : String) (h : k' ≠ k) :
    lookupH (eraseH m k) k' = lookupH m k' := by
  induction m with
  | nil => simp [eraseH]
  | cons p rest ih =>
      obtain ⟨a, w⟩ := p
      by_cases hp : a = k
      · subst hp
        simp [eraseH, lookupH, Ne.symm h, ih]
      · simp only [eraseH, hp, if_false, lookupH, ih]

theorem lookupH_append_single (m : HistMap) (k : String) (v : History) :
    lookupH (m ++ [(k, v)]) k = some ((lookupH m k).getD v) := by
  induction m with
  | nil => simp [lookupH]
  | cons p rest ih =>
      by_cases h : p.1 = k
      · simp [lookupH, h]
      · simp [lookupH, h, ih]

theorem lookupH_append_single_ne (m : HistMap) (k k' : String) (v : History)
    (h : k' ≠ k) : lookupH (m ++ [(k, v)]) k' = lookupH m k' := by
  induction m with
  | nil => simp [lookupH, Ne.symm h]
  | cons p rest ih =>
      obtain ⟨a, w⟩ := p
      by_cases hp : a = k'
      · simp [lookupH, hp]
      · simp [lookupH, hp, ih]

theorem setdefaultH_fst (m : HistMap) (k : String) (v : History) :
    (setdefaultH m k v).1 = (lookupH m k).getD v := by
  unfold setdefaultH
  cases h : lookupH m k <;> simp [h]

theorem lookupH_setdefaultH_self (m : HistMap) (k : String) (v : History) :
    lookupH (setdefaultH m k v).2 k = some ((lookupH m k).getD v) := by
  unfold setdefaultH
  cases h : lookupH m k with
  | none => simp [lookupH_append_single, h]
  | some w => simp [h]

theorem lookupH_setdefaultH_ne (m : HistMap) (k k' : String) (v : History)
    (h : k' ≠ k) : lookupH (setdefaultH m k v).2 k' = lookupH m k' := by
  unfold setdefaultH
  cases hh : lookupH m k with
  | none => simp [lookupH_append_single_ne m k k' v h]
  | some w => simp

theorem mediaOf_append (l1 l2 : List Ev) :
    mediaOf (l1 ++ l2) = mediaOf l1 ++ mediaOf l2 := by
  simp [mediaOf]

theorem mediaOf_sends (cs : List Nat) :
    mediaOf (cs.map (fun c => Ev.act (Action.sendMedia c))) = cs := by
  induction cs with
  | nil => simp [mediaOf]
  | cons c rest ih => simpa [mediaOf] using ih

theorem runFlag_append (b : Bool) (l1 l2 : List Ev) :
    runFlag b (l1 ++ l2) = runFlag (runFlag b l1) l2 := by
  simp [runFlag]

theorem runFlag_sends (b : Bool) (cs : List Nat) :
    runFlag b (cs.map (fun c => Ev.act (Action.sendMedia c))) = b := by
  induction cs with
  | nil => simp [runFlag]
  | cons c rest ih => simpa [runFlag] using ih

theorem runFlag_cons_set (b v : Bool) (tr : List Ev) :
    runFlag b (Ev.setPlaying v :: tr) = runFlag v tr := rfl

theorem runFlag_cons_act (b : Bool) (a : Action) (tr : List Ev) :
    runFlag b (Ev.act a :: tr) = runFlag b tr := rfl

theorem runFlag_stream (b : Bool) (tts : TTSStream) :
    runFlag b (stream_elevenlabs_audio tts).1 = true := by
  obtain ⟨cs, f⟩ := tts
  cases f
  · show runFlag b (Ev.setPlaying true ::
      ((cs.map (fun c => Ev.act (Action.sendMedia c))) ++
        [Ev.act (Action.sendCheckpoint "all_audio_played")])) = true
    rw [runFlag_cons_set, runFlag_append, runFlag_sends, runFlag_cons_act]
    rfl
  · show runFlag b (Ev.setPlaying true ::
      (cs.map (fun c => Ev.act (Action.sendMedia c)))) = true
    rw [runFlag_cons_set, runFlag_sends]

theorem add_message_failure (gen : History → Option String) (u : String)
    (h : History) (hg : gen (h ++ [Msg.mk "user" u]) = none) :
    add_message_and_get_response gen u h = (none, h ++ [Msg.mk "user" u]) := by
  simp [add_message_and_get_response, hg]

theorem add_message_success (gen : History → Option String) (u : String)
    (h : History) (r : String) (hg : gen (h ++ [Msg.mk "user" u]) = some r) :
    add_message_and_get_response gen u h =
      (some r,
       if 20 < (h ++ [Msg.mk "user" u, Msg.mk "assistant" r]).length then
         (h ++ [Msg.mk "user" u, Msg.mk "assistant" r]).drop
           ((h ++ [Msg.mk "user" u, Msg.mk "assistant" r]).length - 20)
       else h ++ [Msg.mk "user" u, Msg.mk "assistant" r]) := by
  simp [add_message_and_get_response, hg]

theorem mediaOf_cons_set (b : Bool) (tr : List Ev) :
    mediaOf (Ev.setPlaying b :: tr) = mediaOf tr := by
  simp [mediaOf]

theorem mediaOf_cons_checkpoint (n : String) (tr : List Ev) :
    mediaOf (Ev.act (Action.sendCheckpoint n) :: tr) = mediaOf tr := by
  simp [mediaOf]

theorem mediaOf_cons_clear (tr : List Ev) :
    mediaOf (Ev.act Action.sendClearAudio :: tr) = mediaOf tr := by
  simp [mediaOf]

theorem filter_checkpoint_sends (cs : List Nat) :
    (cs.map (fun c => Ev.act (Action.sendMedia c))).filter isCheckpoint = [] := by
  induction cs with
  | nil => rfl
  | cons c rest ih => simp [isCheckpoint, ih]

theorem getLast_append_single (l : List Ev) (e : Ev) :
    (l ++ [e]).getLast? = some e := by
  induction l with
  | nil => rfl
  | cons a rest ih =>
      rw [List.cons_append, List.getLast?_cons, ih]
      rfl

/-- C1: After every completed append-and-trim cycle (user turn appended,
assistant turn appended on success, trim applied) the history has length at
most 20, and when the pre-trim length exceeded 20 exactly the most recent 20
entries remain, in their original relative order (the trimmed history is the
length-20 suffix of the pre-trim history); in particular eleven sequential
user/assistant exchanges leave exactly the last ten pairs, oldest dropped. -/
theorem history_cap_after_cycle :
    (∀ (gen : History → Option String) (u : String) (h : History) (r : String)
       (h' : History), add_message_and_get_response gen u h = (some r, h') →
       h'.length ≤ 20 ∧
       (20 < (h ++ [Msg.mk "user" u, Msg.mk "assistant" r]).length →
         h' = (h ++ [Msg.mk "user" u, Msg.mk "assistant" r]).drop
               ((h ++ [Msg.mk "user" u, Msg.mk "assistant" r]).length - 20))) ∧
    elevenExchanges = expectedAfterEleven := by
  constructor
  · intro gen u h r h' he
    cases hg : gen (h ++ [Msg.mk "user" u]) with
    | none =>
        rw [add_message_failure gen u h hg] at he
        simp at he
    | some a =>
        rw [add_message_success gen u h a hg] at he
        simp only [Prod.mk.injEq, Option.some.injEq] at he
        obtain ⟨ha, hh⟩ := he
        subst ha
        subst hh
        by_cases hL : 20 < (h ++ [Msg.mk "user" u, Msg.mk "assistant" a]).length
        · refine ⟨?_, fun _ => by rw [if_pos hL]⟩
          rw [if_pos hL, List.length_drop]
          omega
        · refine ⟨?_, fun hc => absurd hc hL⟩
          rw [if_neg hL]
          omega
  · decide

theorem history_cap_after_cycle_witness :
    (add_message_and_get_response (fun _ => some "ok") "hi" []).2.length ≤ 20 :=
  (history_cap_after_cycle.1 (fun _ => some "ok") "hi" [] "ok"
    (add_message_and_get_response (fun _ => some "ok") "hi" []).2 (by decide)).1

/-- C2: when an end-of-turn arrives while `playing` is true and generation
succeeds, the handler's trace contains a clear-audio command and that command
precedes every media send of the new reply. -/
theorem clear_audio_before_new_reply (gen : History → Option String)
    (tts : TTSStream) (t : String) (st : ConnState) (r : String)
    (hp : st.playing = true)
    (hg : gen ((setdefaultH st.histories (resolveStreamId st.current_stream_id) []).1
           ++ [Msg.mk "user" t]) = some r) :
    Ev.act Action.sendClearAudio ∈ (handleEndOfTurn gen tts t st).2.1 ∧
    clearBeforeAllMedia (handleEndOfTurn gen tts t st).2.1 = true := by
  constructor
  · simp [handleEndOfTurn, add_message_success _ _ _ _ hg, hp]
  · simp [handleEndOfTurn, add_message_success _ _ _ _ hg, hp, clearBeforeAllMedia]

theorem clear_audio_before_new_reply_witness :
    Ev.act Action.sendClearAudio ∈
      (handleEndOfTurn (fun _ => some "ok") ⟨[1], false⟩ "hi"
        ⟨true, some "A", []⟩).2.1 :=
  (clear_audio_before_new_reply (fun _ => some "ok") ⟨[1], false⟩ "hi"
    ⟨true, some "A", []⟩ "ok" rfl rfl).1

/-- C3 counterexample: a duplicate stream-start for an id whose history is
non-empty does not leave an empty history — `setdefault` keeps the prior
list, contradicting the claim that re-initialization discards it. -/
theorem dup_start_keeps_history :
    ¬ lookupH (on_start "A"
        ⟨false, some "A", [("A", [Msg.mk "user" "x"])]⟩).histories "A" = some [] := by
  decide

/-- C3 amended: a duplicate stream-start leaves the existing history for that
id untouched (it is re-selected as current, not re-initialized); an empty
history is installed only when the id was previously absent. -/
theorem on_start_preserves_history (sid : String) (st : ConnState) :
    (on_start sid st).current_stream_id = some sid ∧
    lookupH (on_start sid st).histories sid =
      some ((lookupH st.histories sid).getD []) := by
  exact ⟨rfl, by simp [on_start, lookupH_setdefaultH_self]⟩

/-- C4 counterexample: after a failed generation the user turn is kept with
no assistant turn, so the history length is odd (1 from an empty history),
contradicting the claim that the length is always even after an invocation
completes or fails. -/
theorem failed_turn_odd_history :
    ¬ ((add_message_and_get_response (fun _ => none) "hi" []).2.length % 2 = 0) := by
  decide

/-- C4 amended: after every invocation in which generation succeeds, a
history of even length stays even (two turns appended, trimming removes an
even count); a failed invocation instead leaves the odd, user-turn-only
extension. -/
theorem history_even_after_success (gen : History → Option String)
    (u : String) (h : History) (r : String) (h' : History)
    (he : h.length % 2 = 0)
    (hs : add_message_and_get_response gen u h = (some r, h')) :
    h'.length % 2 = 0 := by
  cases hg : gen (h ++ [Msg.mk "user" u]) with
  | none =>
      rw [add_message_failure gen u h hg] at hs
      simp at hs
  | some a =>
      rw [add_message_success gen u h a hg] at hs
      simp only [Prod.mk.injEq, Option.some.injEq] at hs
      obtain ⟨ha, hh⟩ := hs
      subst ha
      subst hh
      by_cases hL : 20 < (h ++ [Msg.mk "user" u, Msg.mk "assistant" a]).length
      · rw [if_pos hL, List.length_drop]
        simp only [List.length_append, List.length_cons, List.length_nil] at hL ⊢
        omega
      · rw [if_neg hL]
        simp only [List.length_append, List.length_cons, List.length_nil]
        omega

theorem history_even_after_success_witness :
    (add_message_and_get_response (fun _ => some "ok") "hi" []).2.length % 2 = 0 :=
  history_even_after_success (fun _ => some "ok") "hi" [] "ok"
    (add_message_and_get_response (fun _ => some "ok") "hi" []).2
    (by decide) (by decide)

/-- C5: when the generation collaborator fails, the just-appended user turn
remains in the stored history with no assistant turn, the trace is empty (no
clear-audio, no media, no checkpoint — synthesis is never invoked), and the
failure propagates (completion flag false). -/
theorem generation_failure_keeps_user_turn (gen : History → Option String)
    (tts : TTSStream) (t : String) (st : ConnState)
    (hg : gen ((setdefaultH st.histories (resolveStreamId st.current_stream_id) []).1
           ++ [Msg.mk "user" t]) = none) :
    lookupH (handleEndOfTurn gen tts t st).1.histories
        (resolveStreamId st.current_stream_id) =
      some ((setdefaultH st.histories (resolveStreamId st.current_stream_id) []).1
            ++ [Msg.mk "user" t]) ∧
    (handleEndOfTurn gen tts t st).2.1 = [] ∧
    (handleEndOfTurn gen tts t st).2.2 = false := by
  refine ⟨?_, ?_, ?_⟩ <;>
    simp [handleEndOfTurn, add_message_failure _ _ _ hg, lookupH_insertH_self]

theorem generation_failure_keeps_user_turn_witness :
    (handleEndOfTurn (fun _ => none) ⟨[], false⟩ "hi" ⟨false, none, []⟩).2.1 = [] :=
  (generation_failure_keeps_user_turn (fun _ => none) ⟨[], false⟩ "hi"
    ⟨false, none, []⟩ rfl).2.1

theorem mediaOf_stream (tts : TTSStream) :
    mediaOf (stream_elevenlabs_audio tts).1 = tts.chunks := by
  obtain ⟨cs, f⟩ := tts
  cases f
  · show mediaOf (Ev.setPlaying true ::
      (cs.map (fun c => Ev.act (Action.sendMedia c)) ++
        [Ev.act (Action.sendCheckpoint "all_audio_played")])) = cs
    rw [mediaOf_cons_set, mediaOf_append, mediaOf_sends]
    simp [mediaOf]
  · show mediaOf (Ev.setPlaying true ::
      cs.map (fun c => Ev.act (Action.sendMedia c))) = cs
    rw [mediaOf_cons_set, mediaOf_sends]

/-- C6: when the synthesis stream completes cleanly, exactly one checkpoint
is emitted and it is the last trace event (after the final chunk); when the
stream fails mid-sequence, only the chunks yielded before the failure are
sent and no checkpoint is emitted. -/
theorem egress_checkpoint_policy (tts : TTSStream) :
    mediaOf (stream_elevenlabs_audio tts).1 = tts.chunks ∧
    ((stream_elevenlabs_audio tts).1.filter isCheckpoint).length =
      (if tts.fails then 0 else 1) ∧
    (tts.fails = false →
      (stream_elevenlabs_audio tts).1.getLast? =
        some (Ev.act (Action.sendCheckpoint "all_audio_played"))) := by
  refine ⟨mediaOf_stream tts, ?_, ?_⟩
  · obtain ⟨cs, f⟩ := tts
    cases f
    · show ((Ev.setPlaying true ::
        (cs.map (fun c => Ev.act (Action.sendMedia c)) ++
          [Ev.act (Action.sendCheckpoint "all_audio_played")])).filter
            isCheckpoint).length = _
      simp [isCheckpoint, List.filter_append, filter_checkpoint_sends]
    · show ((Ev.setPlaying true ::
        cs.map (fun c => Ev.act (Action.sendMedia c))).filter
          isCheckpoint).length = _
      simp [isCheckpoint, filter_checkpoint_sends]
  · obtain ⟨cs, f⟩ := tts
    cases f
    · intro _
      show (Ev.setPlaying true ::
        (cs.map (fun c => Ev.act (Action.sendMedia c)) ++
          [Ev.act (Action.sendCheckpoint "all_audio_played")])).getLast? = _
      rw [← List.cons_append]
      exact getLast_append_single _ _
    · intro h
      exact Bool.noConfusion h

theorem egress_checkpoint_policy_witness :
    mediaOf (stream_elevenlabs_audio ⟨[5], false⟩).1 = [5] ∧
    (stream_elevenlabs_audio ⟨[5], false⟩).1.getLast? =
      some (Ev.act (Action.sendCheckpoint "all_audio_played")) :=
  ⟨(egress_checkpoint_policy ⟨[5], false⟩).1,
   (egress_checkpoint_policy ⟨[5], false⟩).2.2 rfl⟩

/-- C7 counterexample: with a synthesis stream yielding zero chunks,
`playing` still ends up true — the flag is set before the chunk loop runs,
so it does not remain false throughout a zero-chunk invocation. -/
theorem zero_chunks_still_sets_playing :
    ¬ (runFlag false (stream_elevenlabs_audio ⟨[], false⟩).1 = false) := by
  decide

/-- C7 amended: the egress streamer sets `playing` true at the start of every
invocation, before any chunk is sent — the first trace event is the flag
write, and the flag is true afterwards regardless of chunk count (including
zero chunks) or mid-stream failure. -/
theorem playing_set_at_stream_start (tts : TTSStream) (b : Bool) :
    (stream_elevenlabs_audio tts).1.head? = some (Ev.setPlaying true) ∧
    runFlag b (stream_elevenlabs_audio tts).1 = true := by
  refine ⟨?_, runFlag_stream b tts⟩
  obtain ⟨cs, f⟩ := tts
  cases f <;> rfl

theorem on_disconnected_eq (b : Bool) (sid : String) (m : HistMap) :
    on_disconnected ⟨b, some sid, m⟩ =
      if sid ≠ "" ∧ (lookupH m sid).isSome then ⟨b, some sid, eraseH m sid⟩
      else ⟨b, some sid, m⟩ := rfl

theorem on_disconnected_some (b : Bool) (sid : String) (m : HistMap)
    (hne : sid ≠ "") (hm : (lookupH m sid).isSome = true) :
    on_disconnected ⟨b, some sid, m⟩ = ⟨b, some sid, eraseH m sid⟩ := by
  rw [on_disconnected_eq, if_pos ⟨hne, hm⟩]

/-- C8 counterexample: Python truthiness — for a session whose stream id is
the empty string, `if current_stream_id` is falsy, so the disconnect handler
deletes nothing and the entry survives, contradicting the claim for every
session. -/
theorem empty_id_disconnect_keeps_entry :
    ¬ (lookupH (on_disconnected
        ⟨false, some "", [("", [Msg.mk "user" "x"])]⟩).histories "" = none) := by
  decide

/-- C8 amended: for every session with a non-empty stream id, a disconnect
removes its store entry (a subsequent lookup is not-found), and a second
disconnect for the same id is a no-op that raises no error. -/
theorem disconnect_removes_session (st : ConnState) (sid : String)
    (hc : st.current_stream_id = some sid) (hne : sid ≠ "") :
    lookupH (on_disconnected st).histories sid = none ∧
    on_disconnected (on_disconnected st) = on_disconnected st := by
  obtain ⟨b, cur, m⟩ := st
  simp only at hc
  subst hc
  rw [on_disconnected_eq]
  by_cases hm : (lookupH m sid).isSome = true
  · rw [if_pos ⟨hne, hm⟩]
    have hl : lookupH (eraseH m sid) sid = none := lookupH_eraseH_self m sid
    refine ⟨hl, ?_⟩
    rw [on_disconnected_eq, if_neg]
    intro hand
    rw [hl] at hand
    exact absurd hand.2 (by simp)
  · have hl : lookupH m sid = none := by
      cases h : lookupH m sid with
      | none => rfl
      | some w => rw [h] at hm; exact absurd rfl hm
    rw [if_neg (fun hand => hm hand.2)]
    refine ⟨hl, ?_⟩
    rw [on_disconnected_eq, if_neg (fun hand => hm hand.2)]

theorem disconnect_removes_session_witness :
    lookupH (on_disconnected
      ⟨false, some "A", [("A", [])]⟩).histories "A" = none :=
  (disconnect_removes_session ⟨false, some "A", [("A", [])]⟩ "A" rfl
    (by decide)).1

/-- C9 counterexample: with no known session (no stream-start processed, the
map empty), an end-of-turn is not dropped — a history entry appears under the
fallback key "unknown" and the reply's audio chunk is sent. -/
theorem unknown_session_not_dropped :
    ¬ (lookupH (handleEndOfTurn (fun _ => some "ok") ⟨[7], false⟩ "hi"
          ⟨false, none, []⟩).1.histories "unknown" = none ∧
       mediaOf (handleEndOfTurn (fun _ => some "ok") ⟨[7], false⟩ "hi"
          ⟨false, none, []⟩).2.1 = []) := by
  decide

/-- C9 amended: an end-of-turn whose resolved key (`current_stream_id or
"unknown"` under Python truthiness, so "unknown" also for an empty id) has no
stored history is processed anyway: `setdefault` creates a fresh entry under
that key, which ends up holding the new user/assistant pair, and the reply's
chunks are sent. -/
theorem unknown_session_processed (gen : History → Option String)
    (tts : TTSStream) (t : String) (st : ConnState) (r : String)
    (hkey : lookupH st.histories (resolveStreamId st.current_stream_id) = none)
    (hg : gen [Msg.mk "user" t] = some r) :
    lookupH (handleEndOfTurn gen tts t st).1.histories
        (resolveStreamId st.current_stream_id) =
      some [Msg.mk "user" t, Msg.mk "assistant" r] ∧
    mediaOf (handleEndOfTurn gen tts t st).2.1 = tts.chunks := by
  have hfst : (setdefaultH st.histories (resolveStreamId st.current_stream_id) []).1
      = [] := by
    rw [setdefaultH_fst, hkey]
    rfl
  have hadd : add_message_and_get_response gen t
      (setdefaultH st.histories (resolveStreamId st.current_stream_id) []).1 =
      (some r, [Msg.mk "user" t, Msg.mk "assistant" r]) := by
    rw [hfst, add_message_success gen t [] r (by simpa using hg)]
    simp
  constructor
  · by_cases hp : st.playing = true
    · simp [handleEndOfTurn, hadd, hp, lookupH_insertH_self]
    · simp [handleEndOfTurn, hadd, hp, lookupH_insertH_self]
  · by_cases hp : st.playing = true
    · simp [handleEndOfTurn, hadd, hp, mediaOf_append, mediaOf_cons_clear,
        mediaOf_cons_set, mediaOf_stream]
    · simp [handleEndOfTurn, hadd, hp, mediaOf_stream]

theorem unknown_session_processed_witness :
    lookupH (handleEndOfTurn (fun _ => some "ok") ⟨[7], false⟩ "hi"
        ⟨false, none, []⟩).1.histories "unknown" =
      some [Msg.mk "user" "hi", Msg.mk "assistant" "ok"] :=
  (unknown_session_processed (fun _ => some "ok") ⟨[7], false⟩ "hi"
    ⟨false, none, []⟩ "ok" rfl rfl).1

/-- C10 counterexample: with the second stream-start carrying the empty
string as id B, the subsequent disconnect removes nothing (the truthiness
guard of the handler is falsy), so B's entry survives — the disconnect does
not remove B's entry as the claim asserts. -/
theorem empty_second_start_disconnect_no_removal :
    ¬ (lookupH (on_disconnected (on_start ""
        ⟨false, some "A", [("A", [Msg.mk "user" "x"])]⟩)).histories "" = none) := by
  decide

/-- C10 amended: after a second stream-start with a different id B, A's
history entry is unchanged, and it stays unchanged through the subsequent
disconnect — which touches no key other than B and removes B's entry when B
is a non-empty string (for the empty-string id the truthiness guard skips
removal, so even B's entry survives). -/
theorem second_start_disconnect_frame (st : ConnState) (A B : String)
    (hAB : A ≠ B) :
    lookupH (on_start B st).histories A = lookupH st.histories A ∧
    lookupH (on_disconnected (on_start B st)).histories A =
      lookupH st.histories A ∧
    (B ≠ "" → lookupH (on_disconnected (on_start B st)).histories B = none) ∧
    (∀ k, k ≠ B →
      lookupH (on_disconnected (on_start B st)).histories k =
        lookupH (on_start B st).histories k) := by
  obtain ⟨b, cur, m⟩ := st
  have hstart : on_start B ⟨b, cur, m⟩ = ⟨b, some B, (setdefaultH m B []).2⟩ := rfl
  by_cases hB : B = ""
  · subst hB
    have hd : on_disconnected ⟨b, some "", (setdefaultH m "" []).2⟩ =
        ⟨b, some "", (setdefaultH m "" []).2⟩ := by
      rw [on_disconnected_eq, if_neg]
      intro hand
      exact hand.1 rfl
    rw [hstart, hd]
    refine ⟨lookupH_setdefaultH_ne m "" A [] hAB,
      lookupH_setdefaultH_ne m "" A [] hAB,
      fun hne => absurd rfl hne, fun k _ => rfl⟩
  · have hm : (lookupH (setdefaultH m B []).2 B).isSome = true := by
      rw [lookupH_setdefaultH_self]
      rfl
    rw [hstart, on_disconnected_some b B _ hB hm]
    refine ⟨lookupH_setdefaultH_ne m B A [] hAB, ?_, fun _ => ?_, ?_⟩
    · show lookupH (eraseH (setdefaultH m B []).2 B) A = lookupH m A
      rw [lookupH_eraseH_ne _ B A hAB, lookupH_setdefaultH_ne m B A [] hAB]
    · exact lookupH_eraseH_self _ B
    · intro k hk
      exact lookupH_eraseH_ne _ B k hk

theorem second_start_disconnect_frame_witness :
    lookupH (on_disconnected (on_start "B"
      ⟨false, some "A", [("A", [Msg.mk "user" "x"])]⟩)).histories "A" =
      some [Msg.mk "user" "x"] := by
  have h := (second_start_disconnect_frame
    ⟨false, some "A", [("A", [Msg.mk "user" "x"])]⟩ "A" "B"
    (by decide)).2.1
  rw [h]
  decide

end PlivoDemo
